import Mathlib

/-!
# A verification model of the arriba standup bot (`main.go`)

This file embeds the core logic of the arriba Slack bot — message
extraction, history reconciliation, the standup store, pruning, sorting
and presentation — as executable Lean definitions, and proves (or
refutes) the specified properties about them.

Modelling conventions:

* Go `time.Time` values are modelled as `Int` nanoseconds since the Unix
  epoch.  `time.Unix(sec, nsec)` is `sec * 10^9 + nsec`; the
  normalisation that `time.Unix` performs for `nsec` outside
  `[0, 10^9)` is inherent in this flat representation.
* Go maps are modelled as association lists (`List (String × β)`) with
  in-place replacement on update, mirroring map assignment.  Iteration
  order of a Go map is unspecified; the association-list order is one
  admissible iteration order.
* The Slack RTM client is a collaborator: history fetching is modelled
  as a predetermined trace of fetch results (one per `getHistory` call),
  and user-name lookup / humanised times as function parameters.
-/

namespace Arriba

/-! ## Association lists (the model of Go maps) -/

/-- Lookup in an association list, first binding wins (Go map read). -/
def lookupA {β : Type} : List (String × β) → String → Option β
  | [], _ => none
  | (k', v) :: rest, k => if k' = k then some v else lookupA rest k

/-- Update an association list at a key, replacing the existing binding in
place or appending a fresh one (Go map assignment). -/
def insertA {β : Type} : List (String × β) → String → β → List (String × β)
  | [], k, v => [(k, v)]
  | (k', v') :: rest, k, v =>
    if k' = k then (k, v) :: rest else (k', v') :: insertA rest k v

theorem lookupA_insertA {β : Type} (l : List (String × β)) (k : String) (v : β) :
    lookupA (insertA l k v) k = some v := by
  induction l with
  | nil => simp [insertA, lookupA]
  | cons p rest ih =>
    by_cases h : p.1 = k
    · simp [insertA, lookupA, h]
    · simp [insertA, lookupA, h, ih]

theorem lookupA_insertA_ne {β : Type} (l : List (String × β)) (k k' : String) (v : β)
    (h : k ≠ k') : lookupA (insertA l k v) k' = lookupA l k' := by
  induction l with
  | nil => simp [insertA, lookupA, h]
  | cons p rest ih =>
    by_cases hp : p.1 = k
    · simp [insertA, lookupA, hp, h]
    · simp [insertA, lookupA, hp, ih]

theorem insertA_insertA_same {β : Type} (l : List (String × β)) (k : String) (v v' : β) :
    insertA (insertA l k v) k v' = insertA l k v' := by
  induction l with
  | nil => simp [insertA]
  | cons p rest ih =>
    by_cases hp : p.1 = k
    · simp [insertA, hp]
    · simp [insertA, hp, ih]

/-! ## Data model -/

/-- `main.go` lines 22-25: a Slack message directed to the arriba bot.
The timestamp is `Int` nanoseconds since the epoch. -/
structure standupMsg where
  ts : Int
  text : String
deriving DecidableEq, Inhabited

/-- `main.go` line 28: the latest standup message of each user in a
channel (`map[string]standupMsg`). -/
def channelStandup : Type := List (String × standupMsg)

instance : DecidableEq channelStandup := by
  unfold channelStandup; infer_instance

/-- `main.go` line 58: the channel standups of all channels known to the
bot (`map[string]channelStandup`). -/
def standups : Type := List (String × channelStandup)

instance : DecidableEq standups := by
  unfold standups; infer_instance

/-- The fields of `slack.Msg` / `slack.Message` that the bot reads:
`Type`, `SubType`, `User`, `Text` and the raw `Timestamp` string. -/
structure SlackMsg where
  type : String
  subtype : String
  user : String
  text : String
  timestamp : String
deriving DecidableEq, Inhabited

/-! ## Timestamp parsing (`parseSlackTimeStamp`, lines 103-111) -/

/-- Split a character list at every occurrence of a separator
(`strings.Split` for a one-character separator; also the behaviour of
splitting a string at `'.'` or `'\n'`). -/
def splitOnChar (sep : Char) : List Char → List (List Char)
  | [] => [[]]
  | c :: rest =>
    match splitOnChar sep rest with
    | [] => [[]]
    | cur :: parts =>
      if c = sep then [] :: cur :: parts else (c :: cur) :: parts

/-- Join character lists with `'\n'` (inverse of splitting at `'\n'`). -/
def joinLines : List (List Char) → List Char
  | [] => []
  | [l] => l
  | l :: ls => l ++ '\n' :: joinLines ls

/-- The numeric value of a decimal digit string (`%d` on digits). -/
def digitsToNat (cs : List Char) : Nat :=
  cs.foldl (fun n c => n * 10 + (c.toNat - 48)) 0

/-- The largest value `fmt.Sscanf`'s `%d` verb accepts into an `int64`:
`strconv.ParseInt` reports a range error above `2^63 - 1`, which makes
the scan — and hence `parseSlackTimeStamp` — fail. -/
def int64Max : Nat := 9223372036854775807

/-- `main.go` lines 103-111: `fmt.Sscanf(ts, "%d.%d", &seconds, &milliseconds)`
followed by `time.Unix(seconds, milliseconds*1000)`.  Both `%d` verbs
scan into `int64` variables and error out on values of `2^63` or more
(`strconv.ErrRange`), in which case the function returns the error and
callers reject the message.  On success the result is the instant, in
nanoseconds: `seconds * 10^9 + fractional * 1000` (`time.Unix` takes
its second argument in nanoseconds and normalises values outside
`[0, 10^9)`, which the flat `Int` representation does automatically).
The model's domain is the well-formed `<digits>.<digits>` timestamps
Slack produces; `fmt.Sscanf` additionally tolerates some malformed
variants (signs, leading whitespace, trailing junk) that never occur as
Slack timestamps and are outside the scope of every property below. -/
def parseSlackTimeStamp (ts : String) : Option Int :=
  match splitOnChar '.' ts.data with
  | [secs, frac] =>
    if secs ≠ [] ∧ frac ≠ [] ∧ secs.all Char.isDigit ∧ frac.all Char.isDigit
        ∧ digitsToNat secs ≤ int64Max ∧ digitsToNat frac ≤ int64Max then
      some ((digitsToNat secs : Int) * 1000000000 + (digitsToNat frac : Int) * 1000)
    else
      none
  | _ => none

/-! ## Message extraction (`extractChannelStandupMsg`, lines 113-128)

`main.go` line 19 builds the extraction pattern
`(?m)^\s*<@BOTID>:?\s*(?P<msg>.*)$` from the bot's ID, and line 118
applies `ReplaceAllString(text, "$msg")`: every line addressed to the
bot is replaced by the captured remainder of that line.  We model the
multiline replacement line by line (`(?m)` anchors `^`/`$` at line
boundaries and `.` does not match a newline; the corner case of `\s*`
consuming a newline and crossing a line boundary is not modelled — it
changes only how many leading blank characters survive, not whether a
line is addressed to the bot). -/

/-- Go's `\s` character class: `[\t\n\f\r ]`. -/
def goIsSpace (c : Char) : Bool :=
  c == ' ' || c == '\t' || c == '\n' || c == '\x0c' || c == '\r'

/-- Strip a literal pattern from the front of a character list,
returning the remainder when the pattern is present. -/
def stripLiteral : List Char → List Char → Option (List Char)
  | [], rest => some rest
  | _ :: _, [] => none
  | p :: ps, c :: cs => if c = p then stripLiteral ps cs else none

/-- Matching one line against `^\s*<@BOTID>:?\s*(?P<msg>.*)$`: returns
the captured `msg` group when the line is addressed to the bot. -/
def stripBotMention (botID : String) (line : List Char) : Option (List Char) :=
  match stripLiteral ("<@" ++ botID ++ ">").data (line.dropWhile goIsSpace) with
  | none => none
  | some afterMention =>
    let afterColon :=
      match afterMention with
      | ':' :: cs => cs
      | cs => cs
    some (afterColon.dropWhile goIsSpace)

/-- `a.extractMsgRE.ReplaceAllString(text, "$msg")` (line 118): each line
addressed to the bot is replaced by its captured remainder, all other
lines are kept verbatim. -/
def replaceBotMention (botID : String) (text : String) : String :=
  ⟨joinLines ((splitOnChar '\n' text.data).map
      (fun line => (stripBotMention botID line).getD line))⟩

/-- `main.go` lines 113-128: reject unless `Type == "message"` and
`SubType == ""`; apply the pattern replacement; reject when the output
length equals the input length (nothing was extracted); reject when the
timestamp does not parse; otherwise return the extracted message.
`(standupMsg, bool)` with `ok=false` is modelled as `Option`. -/
def extractChannelStandupMsg (botID : String) (msg : SlackMsg) : Option standupMsg :=
  if msg.type ≠ "message" ∨ msg.subtype ≠ "" then
    none
  else
    let standupText := replaceBotMention botID msg.text
    if standupText.length = msg.text.length then
      none
    else
      match parseSlackTimeStamp msg.timestamp with
      | some ts => some ⟨ts, standupText⟩
      | none => none

/-! ## History reconciliation (`retrieveChannelStandup`, lines 130-172)

Each call to `conversation.getHistory` is modelled by the next element
of a predetermined trace of fetch results.  The `HistoryParameters`
(`Oldest`/`Latest`/`Count`/`Inclusive`, lines 131-135 and 167-169) only
select which messages the backend returns, so they are absorbed into
the trace: a trace element holds exactly the messages the corresponding
call returned.  A well-formed backend trace ends with an error, an
empty page, or a page with `hasMore = false`, so the loop never runs
past the end of the trace; evaluating the model on an exhausted trace
returns the accumulated map without an error. -/

/-- One `getHistory` reply: either an error or a page of messages plus
the `HasMore` flag. -/
inductive FetchResult where
  | fetchError
  | page (messages : List SlackMsg) (hasMore : Bool)
deriving DecidableEq, Inhabited

/-- `main.go` lines 151-162: one page is traversed in reverse index
order (`msg := history.Messages[len-1-i]`); a user already present in
the accumulated map is skipped, otherwise the message is extracted and,
when extraction succeeds with non-empty text, recorded. -/
def processPage (botID : String) (cs : channelStandup) (messages : List SlackMsg) :
    channelStandup :=
  messages.reverse.foldl
    (fun cs msg =>
      if (lookupA cs msg.user).isSome then
        cs
      else
        match extractChannelStandupMsg botID msg with
        | some smsg => if smsg.text ≠ "" then insertA cs msg.user smsg else cs
        | none => cs)
    cs

/-- `main.go` lines 130-172: the pagination loop.  Returns the
accumulated `channelStandup` together with an error flag (`true` models
a non-nil error from `getHistory`, line 143).  An error or an empty
page returns immediately; otherwise the page is folded in and the loop
continues while `HasMore` is set. -/
def retrieveChannelStandup (botID : String) :
    List FetchResult → channelStandup → channelStandup × Bool
  | [], cs => (cs, false)
  | .fetchError :: _, cs => (cs, true)
  | .page messages hasMore :: rest, cs =>
    if messages.isEmpty then
      (cs, false)
    else
      let cs := processPage botID cs messages
      if hasMore then retrieveChannelStandup botID rest cs else (cs, false)

/-- `main.go` lines 174-184: retrieve the standup of every conversation
(a conversation is its ID plus its backend trace) and install the
result into the store — on error the partial result is still installed
(line 181 runs unconditionally; the error is only logged). -/
def retrieveStandups (botID : String) (convs : List (String × List FetchResult))
    (st : standups) : standups :=
  convs.foldl
    (fun st c => insertA st c.1 (retrieveChannelStandup botID c.2 []).1)
    st

/-! ## The standup store (`updateLastStandup`, `removeOldMessages`) -/

/-- `main.go` lines 236-243: create the channel's map if absent, then
bind the user to the message unconditionally.  (The confirmation
message sent on line 241-242 is outbound traffic, not store state.) -/
def updateLastStandup (st : standups) (channelID userID : String) (msg : standupMsg) :
    standups :=
  let cs := (lookupA st channelID).getD []
  insertA st channelID (insertA cs userID msg)

/-- Nanoseconds in a day; `AddDate(0, 0, -historyDaysLimit)` on a UTC
instant subtracts exactly this many nanoseconds per day. -/
def nsPerDay : Int := 86400000000000

/-- `main.go` lines 197-208: if the channel is unknown, do nothing;
otherwise delete every entry whose timestamp is strictly before
`now - historyDaysLimit` days.  (A Go map is mutated in place; in the
value model the filtered map is written back to the store.) -/
def removeOldMessages (now : Int) (historyDaysLimit : Nat) (st : standups)
    (channelID : String) : standups :=
  match lookupA st channelID with
  | none => st
  | some cs =>
    let oldestAllowed : Int := now - (historyDaysLimit : Int) * nsPerDay
    insertA st channelID (cs.filter (fun p => !(decide (p.2.ts < oldestAllowed))))

/-! ## Presentation (`getKeysByTimestamp`, `getUserName`,
`prettyPrintChannelStandup`) -/

/-- The timestamp a key denotes inside a `channelStandup`
(`s.cs[s.keys[i]].ts`, line 40; a missing key would read the map's zero
value, which never happens since the keys are the map's own keys). -/
def tsOf (cs : channelStandup) (k : String) : Int :=
  ((lookupA cs k).getD default).ts

/-- `main.go` lines 37-55: collect the keys of the map and sort them
with `Less i j = cs[keys[i]].ts.After(cs[keys[j]].ts)`.  `sort.Sort` is
an unspecified comparison sort; the model uses `List.mergeSort`, whose
output satisfies the same `sort.Interface` postcondition (a permutation
of the keys that is sorted for the comparator). -/
def getKeysByTimestamp (cs : channelStandup) : List String :=
  (cs.map Prod.fst).mergeSort (fun a b => decide (tsOf cs b ≤ tsOf cs a))

/-- `main.go` lines 186-195: resolve a user ID to a display name via the
RTM collaborator (modelled as a lookup function); on failure fall back
to `"id" + userID`. -/
def getUserName (lookupUser : String → Option String) (userID : String) : String :=
  match lookupUser userID with
  | some name => name
  | none => "id" ++ userID

/-! The username mangling on lines 216-219 operates on BYTES of the
resolved name: `len(userName)` is the byte length, `userName[0]` the
first byte and `userName[1:]` the remaining bytes.  We model names at
that level, as lists of byte values. -/

/-- Go's conversion `string(b)` for a byte `b`: the UTF-8 encoding of
the code point `b` — identical to `[b]` for ASCII, but TWO bytes for
`b ≥ 0x80`. -/
def goStringOfByte (b : Nat) : List Nat :=
  if b < 128 then [b] else [192 + b / 64, 128 + b % 64]

/-- The UTF-8 bytes of `"﻿"` (zero-width no-break space). -/
def feffBytes : List Nat := [239, 187, 191]

/-- `main.go` lines 216-219: if the resolved name is longer than one
byte, rebuild it as `string(userName[0]) + "﻿" + userName[1:]`;
shorter names are left unchanged. -/
def injectZeroWidth (userName : List Nat) : List Nat :=
  if 1 < userName.length then
    goStringOfByte (userName.headD 0) ++ feffBytes ++ userName.tail
  else
    userName

/-- The UTF-8 bytes of a string (Go strings are byte sequences). -/
def strBytes (s : String) : List Nat :=
  s.toUTF8.toList.map UInt8.toNat

/-- `main.go` lines 210-223: the digest, as bytes.  The header line is
followed, in `getKeysByTimestamp` order, by one line
`*NAME*: TEXT _(HUMANTIME)_` per user, with the zero-width character
injected into the resolved name.  `humanize.Time` and the user-name
resolution are collaborators, passed as functions. -/
def prettyPrintChannelStandup (resolveName : String → List Nat)
    (humanTime : Int → List Nat) (cs : channelStandup) : List Nat :=
  (getKeysByTimestamp cs).foldl
    (fun text userID =>
      let smsg := (lookupA cs userID).getD default
      text ++ strBytes "*" ++ injectZeroWidth (resolveName userID) ++ strBytes "*: "
        ++ strBytes smsg.text ++ strBytes " _(" ++ humanTime smsg.ts ++ strBytes ")_\n")
    (strBytes "¡Ándale! ¡Ándale! here's the standup status :tada:\n")

/-! ## The event dispatcher (`handleConnectedEvent`, lines 245-272) -/

/-- The dispatcher state: the bot identity plus the standup store.  The
compiled extraction pattern (`extractMsgRE`, instantiated from the
bot ID on line 259) is a pure function of `botID` and is therefore not
stored separately — `replaceBotMention botID` IS that pattern. -/
structure ArribaState where
  botID : String
  botName : String
  historyDaysLimit : Nat
  standups : standups
deriving DecidableEq

/-- `main.go` lines 95-101: the initial state — no identity, empty
store. -/
def newArriba (historyDaysLimit : Nat) : ArribaState :=
  { botID := "", botName := "", historyDaysLimit := historyDaysLimit, standups := [] }

/-- A `slack.ConnectedEvent` as the dispatcher consumes it: the bot's
own identity and the joined conversations (`ev.Info.Channels` with
`IsMember`, plus `ev.Info.Groups`, lines 262-270), each with its
backend history trace. -/
structure ConnectedEvent where
  userID : String
  userName : String
  conversations : List (String × List FetchResult)
deriving DecidableEq

/-- `main.go` lines 245-272: if the identity is already set
(`a.botID != ""`), log and return with no state change; otherwise
capture the identity, compile the extraction pattern and backfill every
joined conversation. -/
def handleConnectedEvent (a : ArribaState) (ev : ConnectedEvent) : ArribaState :=
  if a.botID ≠ "" then
    a
  else
    { a with
      botID := ev.userID
      botName := ev.userName
      standups := retrieveStandups ev.userID ev.conversations a.standups }

/-- The live-upsert path of `handleMessageEvent` (lines 287-298)
restricted to status updates, applied to a chronologically ordered list
of messages: each message is extracted and, when it carries non-empty
text, upserted via `updateLastStandup`. -/
def liveUpserts (botID channelID : String) (msgs : List SlackMsg) (st : standups) :
    standups :=
  msgs.foldl
    (fun st m =>
      match extractChannelStandupMsg botID m with
      | some smsg => if smsg.text ≠ "" then updateLastStandup st channelID m.user smsg else st
      | none => st)
    st

/-! ## Helper lemmas -/

theorem filter_self_idem {α : Type} (p : α → Bool) (l : List α) :
    (l.filter p).filter p = l.filter p := by
  induction l with
  | nil => rfl
  | cons x xs ih =>
    by_cases h : p x <;> simp [List.filter_cons, h, ih]

theorem handleConnectedEvent_ignored (a : ArribaState) (ev : ConnectedEvent)
    (h : a.botID ≠ "") : handleConnectedEvent a ev = a := by
  simp [handleConnectedEvent, h]

theorem foldl_handleConnectedEvent_ignored (a : ArribaState) (evs : List ConnectedEvent)
    (h : a.botID ≠ "") : evs.foldl handleConnectedEvent a = a := by
  induction evs with
  | nil => rfl
  | cons e es ih => simp [List.foldl_cons, handleConnectedEvent_ignored a e h, ih]

/-- The standup accumulated from a prefix of good pages: folding
`processPage` over them. -/
def foldPages (botID : String) (rs : List FetchResult) (cs : channelStandup) :
    channelStandup :=
  rs.foldl
    (fun cs r =>
      match r with
      | FetchResult.page messages _ => processPage botID cs messages
      | FetchResult.fetchError => cs)
    cs

theorem retrieveChannelStandup_good_then_error (botID : String)
    (good tail : List FetchResult) (cs : channelStandup)
    (h : ∀ r ∈ good, ∃ messages, r = FetchResult.page messages true ∧ messages ≠ []) :
    retrieveChannelStandup botID (good ++ FetchResult.fetchError :: tail) cs
      = (foldPages botID good cs, true) := by
  induction good generalizing cs with
  | nil => simp [retrieveChannelStandup, foldPages]
  | cons r rest ih =>
    obtain ⟨messages, rfl, hne⟩ := h r (List.mem_cons_self r rest)
    have hrest : ∀ r ∈ rest, ∃ messages, r = FetchResult.page messages true ∧ messages ≠ [] :=
      fun r hr => h r (List.mem_cons_of_mem _ hr)
    simp [retrieveChannelStandup, List.isEmpty_iff, hne, ih _ hrest, foldPages]

/-! ## The claims -/

/-- C7: for every store state, conversation ID, author ID and status
message, `updateLastStandup` creates the conversation's map if absent
and then binds the author to the given message unconditionally — the
new message replaces any prior entry for that author even if the prior
entry has a newer timestamp. -/
theorem updateLastStandup_binds_unconditionally (st : standups)
    (channelID userID : String) (msg : standupMsg) :
    lookupA (updateLastStandup st channelID userID msg) channelID
      = some (insertA ((lookupA st channelID).getD []) userID msg)
    ∧ lookupA (insertA ((lookupA st channelID).getD []) userID msg) userID = some msg := by
  exact ⟨lookupA_insertA _ _ _, lookupA_insertA _ _ _⟩

/-- C8: pruning is idempotent — for every store state and conversation
ID, applying `removeOldMessages` twice at the same clock instant yields
the same store as applying it once. -/
theorem removeOldMessages_idempotent (now : Int) (historyDaysLimit : Nat)
    (st : standups) (channelID : String) :
    removeOldMessages now historyDaysLimit
        (removeOldMessages now historyDaysLimit st channelID) channelID
      = removeOldMessages now historyDaysLimit st channelID := by
  unfold removeOldMessages
  cases h : lookupA st channelID with
  | none => simp [h]
  | some cs =>
    simp only [h, lookupA_insertA]
    rw [filter_self_idem, insertA_insertA_same]

/-- C4: extraction rejects every message whose type is not `"message"`
or whose subtype is non-empty, and every message in which no line is
addressed to the bot (the pattern-replacement output is identical to
the input text). -/
theorem extractChannelStandupMsg_rejects (botID : String) (msg : SlackMsg)
    (h : msg.type ≠ "message" ∨ msg.subtype ≠ ""
          ∨ replaceBotMention botID msg.text = msg.text) :
    extractChannelStandupMsg botID msg = none := by
  unfold extractChannelStandupMsg
  by_cases ht : msg.type ≠ "message" ∨ msg.subtype ≠ ""
  · simp [ht]
  · have hr : replaceBotMention botID msg.text = msg.text := by tauto
    simp [ht, hr]

/-- Witness for C4: a plain message that never mentions the bot is
rejected. -/
theorem extractChannelStandupMsg_rejects_witness :
    extractChannelStandupMsg "B0T"
        { type := "message", subtype := "", user := "A", text := "hello", timestamp := "1.2" }
      = none :=
  extractChannelStandupMsg_rejects "B0T"
    { type := "message", subtype := "", user := "A", text := "hello", timestamp := "1.2" }
    (Or.inr (Or.inr (by decide)))

/-- C6: the bot identity is set exactly once, by the first
connection-established event; every subsequent connection-established
event leaves the dispatcher state — identity fields and the standup
store — completely unchanged. -/
theorem handleConnectedEvent_sets_identity_once (historyDaysLimit : Nat)
    (ev : ConnectedEvent) (evs : List ConnectedEvent) (h : ev.userID ≠ "") :
    (handleConnectedEvent (newArriba historyDaysLimit) ev).botID = ev.userID
    ∧ (handleConnectedEvent (newArriba historyDaysLimit) ev).botName = ev.userName
    ∧ (handleConnectedEvent (newArriba historyDaysLimit) ev).standups
        = retrieveStandups ev.userID ev.conversations []
    ∧ evs.foldl handleConnectedEvent (handleConnectedEvent (newArriba historyDaysLimit) ev)
        = handleConnectedEvent (newArriba historyDaysLimit) ev := by
  have h1 : handleConnectedEvent (newArriba historyDaysLimit) ev
      = { botID := ev.userID, botName := ev.userName,
          historyDaysLimit := historyDaysLimit,
          standups := retrieveStandups ev.userID ev.conversations [] } := by
    simp [handleConnectedEvent, newArriba]
  rw [h1]
  exact ⟨rfl, rfl, rfl, foldl_handleConnectedEvent_ignored _ evs (by simpa using h)⟩

/-- Witness for C6: a second connect event after the identity `"U1"` is
captured changes nothing. -/
theorem handleConnectedEvent_sets_identity_once_witness :
    (handleConnectedEvent (newArriba 7) ⟨"U1", "arriba", []⟩).botID = "U1"
    ∧ (handleConnectedEvent (newArriba 7) ⟨"U1", "arriba", []⟩).botName = "arriba"
    ∧ (handleConnectedEvent (newArriba 7) ⟨"U1", "arriba", []⟩).standups
        = retrieveStandups "U1" [] []
    ∧ [ConnectedEvent.mk "U2" "other" []].foldl handleConnectedEvent
          (handleConnectedEvent (newArriba 7) ⟨"U1", "arriba", []⟩)
        = handleConnectedEvent (newArriba 7) ⟨"U1", "arriba", []⟩ :=
  handleConnectedEvent_sets_identity_once 7 ⟨"U1", "arriba", []⟩
    [ConnectedEvent.mk "U2" "other" []] (by decide)

/-- C9: the author keys produced by `getKeysByTimestamp` (and hence the
rendered digest lines) are sorted by message timestamp in
non-increasing order. -/
theorem getKeysByTimestamp_sorted (cs : channelStandup) :
    (getKeysByTimestamp cs).Pairwise (fun a b => tsOf cs b ≤ tsOf cs a) := by
  have htrans : ∀ a b c : String,
      (fun a b => decide (tsOf cs b ≤ tsOf cs a)) a b = true →
      (fun a b => decide (tsOf cs b ≤ tsOf cs a)) b c = true →
      (fun a b => decide (tsOf cs b ≤ tsOf cs a)) a c = true := by
    intro a b c hab hbc
    simp only [decide_eq_true_eq] at *
    exact le_trans hbc hab
  have htotal : ∀ a b : String,
      ((fun a b => decide (tsOf cs b ≤ tsOf cs a)) a b
        || (fun a b => decide (tsOf cs b ≤ tsOf cs a)) b a) = true := by
    intro a b
    simp only [Bool.or_eq_true, decide_eq_true_eq]
    exact le_total _ _
  have h := List.sorted_mergeSort htrans htotal (cs.map Prod.fst)
  exact h.imp (fun hab => by simpa using hab)

/-- C1 (code bug): on a single history page ordered newest-first (index
0 is the newest message, as Slack delivers pages and as the pagination
step on lines 167-169 itself assumes), the reverse traversal on lines
151-162 processes the OLDEST message first, so first-occurrence-wins
binds the author to the older message — here `"first"` at t=100s even
though the author's qualifying message `"second"` at t=300s also
extracts successfully. -/
theorem retrieveChannelStandup_keeps_older_message :
    retrieveChannelStandup "B0T"
        [FetchResult.page
          [{ type := "message", subtype := "", user := "A",
             text := "<@B0T> second", timestamp := "300.0" },
           { type := "message", subtype := "", user := "A",
             text := "<@B0T> first", timestamp := "100.0" }] false]
        []
      = ([("A", { ts := 100000000000, text := "first" })], false)
    ∧ (100000000000 : Int) < 300000000000
    ∧ extractChannelStandupMsg "B0T"
        { type := "message", subtype := "", user := "A",
          text := "<@B0T> second", timestamp := "300.0" }
      = some { ts := 300000000000, text := "second" } := by
  exact ⟨by decide, by decide, by decide⟩

/-- C2 (code bug): feeding the reconciler the exact message set produced
by a chronological live-upsert sequence does NOT reproduce the same
per-author map: the upserts end on the newest message (t=300s) while
the reconciler, traversing the newest-first page in reverse, keeps the
oldest (t=100s). -/
theorem retrieveChannelStandup_differs_from_liveUpserts :
    (lookupA (liveUpserts "B0T" "C"
        [{ type := "message", subtype := "", user := "A",
           text := "<@B0T> first", timestamp := "100.0" },
         { type := "message", subtype := "", user := "A",
           text := "<@B0T> second", timestamp := "300.0" }] []) "C").getD []
      = [("A", { ts := 300000000000, text := "second" })]
    ∧ (retrieveChannelStandup "B0T"
        [FetchResult.page
          [{ type := "message", subtype := "", user := "A",
             text := "<@B0T> second", timestamp := "300.0" },
           { type := "message", subtype := "", user := "A",
             text := "<@B0T> first", timestamp := "100.0" }] false] []).1
      = [("A", { ts := 100000000000, text := "first" })]
    ∧ ([("A", ({ ts := 300000000000, text := "second" } : standupMsg))] : channelStandup)
        ≠ [("A", { ts := 100000000000, text := "first" })] := by
  exact ⟨by decide, by decide, by decide⟩

/-- C3 counterexample: the claim fails for fractional parts of a million
or more.  At `"0.1000000"` the code computes
`time.Unix(0, 1000000*1000)`, i.e. the instant `10^9` ns = exactly one
second: its whole-second part is 1, not the parsed seconds value 0, and
its sub-second part is 0, not `fractional * 1000`. -/
theorem parseSlackTimeStamp_overflow_counterexample :
    parseSlackTimeStamp "0.1000000" = some ((1000000000 : Nat) : Int)
    ∧ digitsToNat "0".data = 0
    ∧ digitsToNat "1000000".data = 1000000
    ∧ ¬((1000000000 : Nat) / 1000000000 = digitsToNat "0".data
        ∧ (1000000000 : Nat) % 1000000000 = digitsToNat "1000000".data * 1000) := by
  exact ⟨by decide, by decide, by decide, by decide⟩

/-- C3 (amended): for every raw timestamp of the form
`<integer-seconds>.<integer-fractional>` whose seconds value fits in an
`int64` (otherwise `fmt.Sscanf`'s `%d` reports a range error and the
program rejects the timestamp) and whose fractional value is below
`10^6` (so that `fractional * 1000` stays below one second — in
particular for every Slack timestamp, whose fractional part has six
digits), the parsed instant's whole-second part equals the seconds
value and its sub-second part equals `fractional * 1000` of the
source's base unit (nanoseconds): the literal `fractional*1000`
scaling, treated as if the fraction were milliseconds, not
microseconds. -/
theorem parseSlackTimeStamp_correct (ts : String) (secs frac : List Char)
    (hsplit : splitOnChar '.' ts.data = [secs, frac])
    (hs : secs ≠ []) (hf : frac ≠ [])
    (hds : secs.all Char.isDigit = true) (hdf : frac.all Char.isDigit = true)
    (hrange : digitsToNat secs ≤ int64Max)
    (hlt : digitsToNat frac < 1000000) :
    parseSlackTimeStamp ts
      = some ((digitsToNat secs * 1000000000 + digitsToNat frac * 1000 : Nat) : Int)
    ∧ (digitsToNat secs * 1000000000 + digitsToNat frac * 1000) / 1000000000
        = digitsToNat secs
    ∧ (digitsToNat secs * 1000000000 + digitsToNat frac * 1000) % 1000000000
        = digitsToNat frac * 1000 := by
  have hfr : digitsToNat frac ≤ int64Max := by
    unfold int64Max
    omega
  refine ⟨?_, ?_, ?_⟩
  · simp [parseSlackTimeStamp, hsplit, hs, hf, hds, hdf, hrange, hfr]
  · omega
  · omega

/-- Witness for C3: the Slack timestamp `"1355517523.000005"`. -/
theorem parseSlackTimeStamp_correct_witness :
    parseSlackTimeStamp "1355517523.000005"
      = some ((digitsToNat "1355517523".data * 1000000000
          + digitsToNat "000005".data * 1000 : Nat) : Int)
    ∧ (digitsToNat "1355517523".data * 1000000000 + digitsToNat "000005".data * 1000)
          / 1000000000
        = digitsToNat "1355517523".data
    ∧ (digitsToNat "1355517523".data * 1000000000 + digitsToNat "000005".data * 1000)
          % 1000000000
        = digitsToNat "000005".data * 1000 :=
  parseSlackTimeStamp_correct "1355517523.000005" "1355517523".data "000005".data
    (by decide) (by decide) (by decide) (by decide) (by decide) (by decide) (by decide)

/-- C5: when a history fetch errors mid-pagination the loop stops and
returns the map accumulated from the pages already processed together
with the error, and `retrieveStandups` still installs that partial map
into the store under the conversation's ID. -/
theorem retrieveChannelStandup_error_returns_partial (botID channelID : String)
    (st : standups) (good tail : List FetchResult)
    (h : ∀ r ∈ good, ∃ messages, r = FetchResult.page messages true ∧ messages ≠ []) :
    retrieveChannelStandup botID (good ++ FetchResult.fetchError :: tail) []
      = (foldPages botID good [], true)
    ∧ lookupA
          (retrieveStandups botID [(channelID, good ++ FetchResult.fetchError :: tail)] st)
          channelID
      = some (foldPages botID good []) := by
  have h1 := retrieveChannelStandup_good_then_error botID good tail [] h
  refine ⟨h1, ?_⟩
  simp [retrieveStandups, h1, lookupA_insertA]

/-- Witness for C5: one good page followed by a fetch error. -/
theorem retrieveChannelStandup_error_returns_partial_witness :
    retrieveChannelStandup "B0T"
        [FetchResult.page
          [{ type := "message", subtype := "", user := "A",
             text := "<@B0T> hola", timestamp := "100.0" }] true,
         FetchResult.fetchError] []
      = (foldPages "B0T"
          [FetchResult.page
            [{ type := "message", subtype := "", user := "A",
               text := "<@B0T> hola", timestamp := "100.0" }] true] [], true)
    ∧ lookupA
          (retrieveStandups "B0T"
            [("C",
              [FetchResult.page
                [{ type := "message", subtype := "", user := "A",
                   text := "<@B0T> hola", timestamp := "100.0" }] true,
               FetchResult.fetchError])] []) "C"
      = some (foldPages "B0T"
          [FetchResult.page
            [{ type := "message", subtype := "", user := "A",
               text := "<@B0T> hola", timestamp := "100.0" }] true] []) :=
  retrieveChannelStandup_error_returns_partial "B0T" "C" []
    [FetchResult.page
      [{ type := "message", subtype := "", user := "A",
         text := "<@B0T> hola", timestamp := "100.0" }] true] []
    (by
      rintro r hr
      rw [List.mem_singleton] at hr
      subst hr
      exact ⟨_, rfl, by decide⟩)

/-- C10 counterexample: for the two-byte name `"é"` (UTF-8 bytes
`[195, 169]`), the rendered name is NOT the first byte followed by
U+FEFF and the rest: Go's `string(userName[0])` re-encodes the byte
value 195 as the two-byte code point `[195, 131]`. -/
theorem injectZeroWidth_not_first_byte_counterexample :
    injectZeroWidth [195, 169] = [195, 131, 239, 187, 191, 169]
    ∧ injectZeroWidth [195, 169] ≠ [195] ++ feffBytes ++ [169] := by
  exact ⟨by decide, by decide⟩

/-- C10 (amended): a resolved display name of byte length at most 1 is
rendered unchanged; a longer name is rendered as the Go string
conversion of its first byte (the UTF-8 encoding of that byte's value
as a code point — the byte itself exactly when it is ASCII), then
U+FEFF, then the remaining bytes — in particular the rendered name
never equals the resolved name, so the digest cannot mention a user by
their exact name. -/
theorem injectZeroWidth_mangles (userName : List Nat) :
    (userName.length ≤ 1 → injectZeroWidth userName = userName)
    ∧ (1 < userName.length →
        injectZeroWidth userName
          = goStringOfByte (userName.headD 0) ++ feffBytes ++ userName.tail
        ∧ injectZeroWidth userName ≠ userName) := by
  constructor
  · intro h
    simp [injectZeroWidth, Nat.not_lt.mpr h]
  · intro h
    have heq : injectZeroWidth userName
        = goStringOfByte (userName.headD 0) ++ feffBytes ++ userName.tail := by
      simp [injectZeroWidth, h]
    refine ⟨heq, ?_⟩
    intro hcontra
    have hlen := congrArg List.length hcontra
    rw [heq] at hlen
    have hg : 1 ≤ (goStringOfByte (userName.headD 0)).length := by
      unfold goStringOfByte
      split <;> simp
    have htail : userName.length = userName.tail.length + 1 := by
      cases userName with
      | nil => simp at h
      | cons a l => simp
    simp [feffBytes] at hlen
    omega

/-- Witness for C10: the two-byte ASCII name `"ab"` is rendered with
U+FEFF injected and differs from the original. -/
theorem injectZeroWidth_mangles_witness :
    1 < ([97, 98] : List Nat).length
    ∧ (injectZeroWidth [97, 98]
        = goStringOfByte (([97, 98] : List Nat).headD 0) ++ feffBytes
            ++ ([97, 98] : List Nat).tail
      ∧ injectZeroWidth [97, 98] ≠ [97, 98]) :=
  ⟨by decide, (injectZeroWidth_mangles [97, 98]).2 (by decide)⟩

end Arriba
